import Mathlib

/-!
A shallow embedding of `bfd/compress.c` (the BFD section-content compression
subsystem) and theorems checking its specification.

Bytes are modelled as `Nat` (with `% 256` where the source extracts byte
values), buffers as `List Nat`, machine sizes as `Nat`, and the
`compression_header_size` out-parameter (which can carry the sentinel `-1`)
as `Int`.  Fallible C functions returning `false`/`0` with a `bfd_error`
code become functions returning a result structure carrying the success
flag, the error code set (if any) and the post-state of the section.
`abort ()` is modelled as `Option.none` on the whole operation.

External collaborators (the raw section read `bfd_get_section_contents`,
the format hooks `bfd_get_compression_header_size`,
`bfd_check_compression_header`, `bfd_update_compression_header`, and the
zlib `compress` primitive) are fields of the `Bfd` structure, so theorems
quantify over their behaviour.  The zlib `inflate` primitive is modelled
from the spec (see `inflate` below).  The allocator is modelled as always
succeeding (allocation-failure paths of the C code return early with no
state change and are not the subject of any claim).
-/

namespace BfdCompress

/-- The three-state per-section compression lifecycle of the source:
`COMPRESS_SECTION_NONE`, `DECOMPRESS_SECTION_SIZED`, `COMPRESS_SECTION_DONE`. -/
inductive CompressStatus
  | compress_section_none
  | decompress_section_sized
  | compress_section_done
deriving DecidableEq, Repr

/-- The bfd open direction (`bfd.direction` in the source). -/
inductive Direction
  | no_direction
  | read_direction
  | write_direction
  | both_direction
deriving DecidableEq, Repr

/-- The bfd target flavour; the source only distinguishes
`bfd_target_mmo_flavour` from everything else. -/
inductive Flavour
  | mmo_flavour
  | elf_flavour
  | other_flavour
deriving DecidableEq, Repr

/-- Error codes set via `bfd_set_error` in the source.  `io_error` stands for
whatever error the external `bfd_get_section_contents` collaborator sets when
a raw read fails. -/
inductive BfdError
  | invalid_operation
  | wrong_format
  | bad_value
  | file_truncated
  | no_memory
  | io_error
deriving DecidableEq, Repr

/-- The fields of `asection` that `compress.c` reads or writes.  The three
flag bits used (`SEC_LINKER_CREATED`, `SEC_HAS_CONTENTS`, `SEC_IN_MEMORY`)
are modelled as booleans. -/
structure Asection where
  name : String
  size : Nat
  rawsize : Nat
  compressed_size : Nat
  alignment_power : Nat
  contents : Option (List Nat)
  compress_status : CompressStatus
  linker_created : Bool
  has_contents : Bool
  in_memory : Bool
deriving DecidableEq, Repr

/-- The bfd handle together with its external collaborators:
`get_compression_header_size` (called with `some sec` for the section's
current format, `none` for the write-target format),
`check_compression_header` / `update_compression_header` (the format-specific
embedded-header codec), `get_section_contents` (raw read of the first `n`
bytes of a section off backing storage; `none` models a failed read) and
`zlib_compress` (the zlib `compress` primitive; `none` models a non-`Z_OK`
return). -/
structure Bfd where
  direction : Direction
  flavour : Flavour
  filesize : Nat
  get_compression_header_size : Option Asection → Nat
  check_compression_header : List Nat → Asection → Option (Nat × Nat)
  update_compression_header : Asection → List Nat
  get_section_contents : Asection → Nat → Option (List Nat)
  zlib_compress : List Nat → Option (List Nat)

/-- MAX_COMPRESSION_HEADER_SIZE from the source. -/
def MAX_COMPRESSION_HEADER_SIZE : Nat := 24

/-- zlib return code `Z_OK`. -/
def Z_OK : Int := 0

/-- zlib return code `Z_STREAM_END`. -/
def Z_STREAM_END : Int := 1

/-- zlib return code `Z_DATA_ERROR`. -/
def Z_DATA_ERROR : Int := -3

/-- zlib return code `Z_BUF_ERROR`. -/
def Z_BUF_ERROR : Int := -5

/-- `startswith (buf, pre)` from the source: the first `pre.length` bytes of
`buf` equal `pre`. -/
def startswith (buf pre : List Nat) : Bool := buf.take pre.length == pre

/-- The ASCII bytes of the legacy magic string `ZLIB`. -/
def zlibMagicBytes : List Nat := [90, 76, 73, 66]

/-- `ISPRINT` from safe-ctype: an ASCII printable character (0x20..0x7E). -/
def isprint (c : Nat) : Bool := 32 ≤ c && c ≤ 126

/-- `bfd_getb64`: read 8 bytes in big-endian order from the front of a list. -/
def bfd_getb64 (l : List Nat) : Nat :=
  (l.take 8).foldl (fun acc b => acc * 256 + b % 256) 0

/-- The observable part of the zlib `z_stream` state threaded through
`decompress_contents`: the return code of the last primitive call, the
remaining input (`avail_in`, kept as the actual bytes), the remaining output
room (`avail_out`) and the bytes produced so far (`next_out` cursor). -/
structure InflateState where
  rc : Int
  avail_in : List Nat
  avail_out : Nat
  produced : List Nat
deriving DecidableEq, Repr

/-- The marker byte opening a toy compressed block (see `inflate`). -/
def zBlockMagic : Nat := 120

/-- Modelled from the spec: one call of the opaque stream primitive — zlib
`inflate` with flush mode `Z_FINISH` — which is external to the repository
(zlib).  The spec describes it as decompressing "one block to completion
(signaled by the underlying primitive's stream end condition)".  The model
uses a toy framing: one compressed block is `zBlockMagic :: len :: payload`
with `payload.length = len`, and decompresses to `payload`.  A call decodes
the block at the front of the input: on success it consumes the block,
appends its payload and returns `Z_STREAM_END`; if the payload does not fit
in the remaining output room it fills the room and returns `Z_BUF_ERROR`
without reaching stream end; a corrupt or truncated block returns
`Z_DATA_ERROR`.  The primitive never writes past the output buffer. -/
def inflate (inp : List Nat) (availOut : Nat) : InflateState :=
  match inp with
  | m :: len :: rest =>
    if m = zBlockMagic ∧ len ≤ rest.length then
      if len ≤ availOut then
        ⟨Z_STREAM_END, rest.drop len, availOut - len, rest.take len⟩
      else
        ⟨Z_BUF_ERROR, rest.drop availOut, 0, rest.take availOut⟩
    else ⟨Z_DATA_ERROR, inp, availOut, []⟩
  | _ => ⟨Z_DATA_ERROR, inp, availOut, []⟩

/-- The `while (strm.avail_in > 0 && strm.avail_out > 0)` loop of
`decompress_contents`: decode one block; on `Z_STREAM_END`, `inflateReset`
(which returns `Z_OK`, so the `rc != Z_OK` break at the top of the C loop
never fires after a successful init/reset, both modelled as succeeding) and
continue with the next concatenated block.  The `fuel` argument is a Lean
termination artifact; every decoded block consumes at least two input bytes,
so `avail_in.length + 1` fuel always suffices (the fuel-exhaustion branch is
unreachable from `decompress_contents`). -/
def inflateLoop : Nat → List Nat → Nat → InflateState
  | 0, inp, availOut => ⟨Z_BUF_ERROR, inp, availOut, []⟩
  | fuel + 1, inp, availOut =>
    if inp = [] ∨ availOut = 0 then ⟨Z_OK, inp, availOut, []⟩
    else
      let s := inflate inp availOut
      if s.rc = Z_STREAM_END then
        let t := inflateLoop fuel s.avail_in s.avail_out
        ⟨t.rc, t.avail_in, t.avail_out, s.produced ++ t.produced⟩
      else s

/-- `decompress_contents` from the source: inflate the (possibly
concatenated) compressed blocks of `compressed_buffer` into a buffer of
`uncompressed_size` bytes.  The C function returns
`inflateEnd (&strm) == Z_OK && rc == Z_OK && strm.avail_out == 0` and the
filled output buffer; `inflateEnd` always returns `Z_OK` here.  `some out`
models success with output bytes `out`; `none` models returning false. -/
def decompress_contents (compressed_buffer : List Nat) (uncompressed_size : Nat) :
    Option (List Nat) :=
  let s := inflateLoop (compressed_buffer.length + 1) compressed_buffer uncompressed_size
  if s.rc = Z_OK ∧ s.avail_out = 0 then some s.produced else none

/-- The toy encoding of one compressed block (see `inflate`). -/
def encodeBlock (p : List Nat) : List Nat := zBlockMagic :: p.length :: p

/-- Concatenation of independently-terminated compressed blocks. -/
def encodeBlocks : List (List Nat) → List Nat
  | [] => []
  | p :: ps => encodeBlock p ++ encodeBlocks ps

/-- Total plaintext length of a list of blocks. -/
def totalLen (ps : List (List Nat)) : Nat := (ps.map List.length).sum

/-- `compressBound`, modelled from the spec ("the maximum possible output
size the compressor might produce for a given input size"); only used to
size the destination buffer, never observed by any claim. -/
def compressBound (n : Nat) : Nat := n + n / 1000 + 12

/-- The result record of `bfd_is_section_compressed_with_header`: the
returned boolean plus the three out-parameters and the section as left
behind by the call. -/
structure DetectResult where
  compressed : Bool
  compression_header_size : Int
  uncompressed_size : Nat
  uncompressed_align_pow : Nat
  sec : Asection
deriving DecidableEq, Repr

/-- `bfd_is_section_compressed_with_header` from the source.  Reads the
candidate header window from backing storage while temporarily presenting
the section as `COMPRESS_SECTION_NONE`, restoring `compress_status`
afterwards on every path (also when the read fails).  `none` models the
`abort ()` on a compression header size above the 24-byte maximum. -/
def bfd_is_section_compressed_with_header (abfd : Bfd) (sec : Asection) :
    Option DetectResult :=
  let saved := sec.compress_status
  let compression_header_size := abfd.get_compression_header_size (some sec)
  if compression_header_size > MAX_COMPRESSION_HEADER_SIZE then none
  else
    let header_size := if compression_header_size ≠ 0 then compression_header_size else 12
    let probe : Asection := { sec with compress_status := CompressStatus.compress_section_none }
    let read := abfd.get_section_contents probe header_size
    let header := read.getD []
    let compressed : Bool :=
      match read with
      | some _ =>
        if compression_header_size = 0 then startswith header zlibMagicBytes else true
      | none => false
    let restored : Asection := { probe with compress_status := saved }
    if compressed then
      if compression_header_size ≠ 0 then
        match abfd.check_compression_header header probe with
        | some (usz, upow) =>
          some ⟨true, (compression_header_size : Int), usz, upow, restored⟩
        | none => some ⟨true, -1, sec.size, 0, restored⟩
      else if sec.name = ".debug_str" ∧ isprint (header.getD 4 0) then
        some ⟨false, (compression_header_size : Int), sec.size, 0, restored⟩
      else
        some ⟨true, (compression_header_size : Int), bfd_getb64 (header.drop 4), 0, restored⟩
    else
      some ⟨false, (compression_header_size : Int), sec.size, 0, restored⟩

/-- `bfd_is_section_compressed` from the source: the simple predicate. -/
def bfd_is_section_compressed (abfd : Bfd) (sec : Asection) : Option Bool :=
  (bfd_is_section_compressed_with_header abfd sec).map fun d =>
    d.compressed && decide (0 ≤ d.compression_header_size)
      && decide (0 < d.uncompressed_size)

/-- The on-disk header length of the section's existing compressed header as
computed at the top of the compressed branch of
`bfd_compress_section_contents`: the fixed 12-byte legacy overhead when the
detected `compression_header_size` is the legacy marker 0, else that size. -/
def commit_orig_header_size (d : DetectResult) : Nat :=
  if d.compression_header_size = 0 then 12 else d.compression_header_size.toNat

/-- The target header size for the commit, from the head of
`bfd_compress_section_contents`: the write-target format's embedded header
size if nonzero, else the 12-byte legacy overhead. -/
def commit_target_header_size (abfd : Bfd) : Nat :=
  let header_size := abfd.get_compression_header_size none
  if header_size = 0 then 12 else header_size

/-- The result of `bfd_compress_section_contents`: the returned size (0 on
failure), the `bfd_error` set (if any) and the post-state of the section. -/
structure CommitResult where
  ret : Nat
  err : Option BfdError
  sec : Asection
deriving DecidableEq, Repr

/-- `bfd_compress_section_contents` from the source (the write-path commit).
`none` models the two `abort ()` calls (one inside detection, one on an
unsupported compressed section, `orig_compression_header_size < 0`). -/
def bfd_compress_section_contents (abfd : Bfd) (sec : Asection)
    (uncompressed_buffer : List Nat) (uncompressed_size : Nat) : Option CommitResult :=
  let header_size := commit_target_header_size abfd
  match bfd_is_section_compressed_with_header abfd sec with
  | none => none
  | some d =>
    if d.compressed then
      if d.compression_header_size < 0 then none
      else
        let orig_compression_header_size := commit_orig_header_size d
        let zlib_size := uncompressed_size - orig_compression_header_size
        let compressed_size := zlib_size + header_size
        if compressed_size > d.uncompressed_size then
          let sec1 := { sec with size := d.uncompressed_size }
          match decompress_contents
              ((uncompressed_buffer.drop orig_compression_header_size).take zlib_size)
              d.uncompressed_size with
          | none => some ⟨0, some BfdError.bad_value, sec1⟩
          | some buffer =>
            some ⟨d.uncompressed_size, none,
              { sec1 with alignment_power := d.uncompressed_align_pow,
                          contents := some buffer,
                          compress_status := CompressStatus.compress_section_done }⟩
        else
          let sec1 := { sec with size := d.uncompressed_size }
          let buffer := abfd.update_compression_header sec1
                          ++ (uncompressed_buffer.drop orig_compression_header_size).take zlib_size
          some ⟨uncompressed_size, none,
            { sec1 with size := compressed_size, contents := some buffer,
                        compress_status := CompressStatus.compress_section_done }⟩
    else
      match abfd.zlib_compress uncompressed_buffer with
      | none => some ⟨0, some BfdError.bad_value, sec⟩
      | some compressed_payload =>
        let compressed_size := compressed_payload.length + header_size
        if compressed_size < uncompressed_size then
          let buffer := abfd.update_compression_header sec ++ compressed_payload
          some ⟨uncompressed_size, none,
            { sec with size := compressed_size, contents := some buffer,
                       compress_status := CompressStatus.compress_section_done }⟩
        else
          some ⟨uncompressed_size, none,
            { sec with contents := some uncompressed_buffer,
                       compress_status := CompressStatus.compress_section_none }⟩

/-- The size `sz` computed at the top of `bfd_get_full_section_contents`:
`rawsize` when not opened for write and `rawsize` is nonzero, else `size`. -/
def full_contents_size (abfd : Bfd) (sec : Asection) : Nat :=
  if abfd.direction ≠ Direction.write_direction ∧ sec.rawsize ≠ 0
  then sec.rawsize else sec.size

/-- The result of `bfd_get_full_section_contents`: the returned boolean, the
value stored through `*ptr` on success, the `bfd_error` set (if any) and the
post-state of the section. -/
structure ReadOutcome where
  success : Bool
  buf : Option (List Nat)
  err : Option BfdError
  sec : Asection
deriving DecidableEq, Repr

/-- `bfd_get_full_section_contents` from the source.  `ptr = none` models a
caller passing `*ptr == NULL` (asking the function to allocate);
`ptr = some p` models a caller-supplied buffer, into which the bytes are
copied (the copy is modelled by returning the bytes themselves). -/
def bfd_get_full_section_contents (abfd : Bfd) (sec : Asection)
    (ptr : Option (List Nat)) : ReadOutcome :=
  let sz := full_contents_size abfd sec
  if sz = 0 then ⟨true, none, none, sec⟩
  else
    match sec.compress_status with
    | CompressStatus.compress_section_none =>
      if ptr = none ∧ 0 < abfd.filesize ∧ abfd.filesize < sz
          ∧ sec.linker_created = false ∧ sec.has_contents = true
          ∧ abfd.flavour ≠ Flavour.mmo_flavour then
        ⟨false, none, some BfdError.file_truncated, sec⟩
      else
        match abfd.get_section_contents sec sz with
        | none => ⟨false, none, some BfdError.io_error, sec⟩
        | some bytes => ⟨true, some bytes, none, sec⟩
    | CompressStatus.decompress_section_sized =>
      let save_rawsize := sec.rawsize
      let save_size := sec.size
      let probe : Asection :=
        { sec with rawsize := 0, size := sec.compressed_size,
                   compress_status := CompressStatus.compress_section_none }
      let read := abfd.get_section_contents probe sec.compressed_size
      let restored : Asection :=
        { probe with rawsize := save_rawsize, size := save_size,
                     compress_status := CompressStatus.decompress_section_sized }
      match read with
      | none => ⟨false, none, some BfdError.io_error, restored⟩
      | some compressed_buffer =>
        let chs0 := abfd.get_compression_header_size (some restored)
        let compression_header_size := if chs0 = 0 then 12 else chs0
        match decompress_contents
            ((compressed_buffer.drop compression_header_size).take
              (sec.compressed_size - compression_header_size)) sz with
        | none => ⟨false, none, some BfdError.bad_value, restored⟩
        | some p => ⟨true, some p, none, restored⟩
    | CompressStatus.compress_section_done =>
      match sec.contents with
      | none => ⟨false, none, none, sec⟩
      | some contents => ⟨true, some (contents.take sz), none, sec⟩

/-- `bfd_cache_section_contents` from the source. -/
def bfd_cache_section_contents (sec : Asection) (contents : Option (List Nat)) :
    Asection :=
  let sec1 := if sec.compress_status = CompressStatus.decompress_section_sized
              then { sec with compress_status := CompressStatus.compress_section_done }
              else sec
  { sec1 with contents := contents, in_memory := true }

/-- The result of the two init operations and of `bfd_compress_section`. -/
structure OpResult where
  ok : Bool
  err : Option BfdError
  sec : Asection
deriving DecidableEq, Repr

/-- `bfd_init_section_decompress_status` from the source.  `none` models the
`abort ()` on an over-large compression header size. -/
def bfd_init_section_decompress_status (abfd : Bfd) (sec : Asection) :
    Option OpResult :=
  let compression_header_size := abfd.get_compression_header_size (some sec)
  if compression_header_size > MAX_COMPRESSION_HEADER_SIZE then none
  else
    let header_size := if compression_header_size ≠ 0 then compression_header_size else 12
    if sec.rawsize ≠ 0 ∨ sec.contents ≠ none
        ∨ sec.compress_status ≠ CompressStatus.compress_section_none then
      some ⟨false, some BfdError.invalid_operation, sec⟩
    else
      match abfd.get_section_contents sec header_size with
      | none => some ⟨false, some BfdError.invalid_operation, sec⟩
      | some header =>
        if compression_header_size = 0 then
          if ¬ startswith header zlibMagicBytes then
            some ⟨false, some BfdError.wrong_format, sec⟩
          else
            some ⟨true, none,
              { sec with compressed_size := sec.size,
                         size := bfd_getb64 (header.drop 4),
                         alignment_power := 0,
                         compress_status := CompressStatus.decompress_section_sized }⟩
        else
          match abfd.check_compression_header header sec with
          | none => some ⟨false, some BfdError.wrong_format, sec⟩
          | some (usz, upow) =>
            some ⟨true, none,
              { sec with compressed_size := sec.size, size := usz,
                         alignment_power := upow,
                         compress_status := CompressStatus.decompress_section_sized }⟩

/-- `bfd_init_section_compress_status` from the source (read-path commit). -/
def bfd_init_section_compress_status (abfd : Bfd) (sec : Asection) :
    Option OpResult :=
  if abfd.direction ≠ Direction.read_direction ∨ sec.size = 0 ∨ sec.rawsize ≠ 0
      ∨ sec.contents ≠ none
      ∨ sec.compress_status ≠ CompressStatus.compress_section_none then
    some ⟨false, some BfdError.invalid_operation, sec⟩
  else
    let uncompressed_size := sec.size
    match abfd.get_section_contents sec uncompressed_size with
    | none => some ⟨false, some BfdError.io_error, sec⟩
    | some uncompressed_buffer =>
      (bfd_compress_section_contents abfd sec uncompressed_buffer
        uncompressed_size).map fun r => ⟨r.ret ≠ 0, r.err, r.sec⟩

/-- `bfd_compress_section` from the source (write-path commit entry point).
Its doc comment in the source promises: "compress section, update section
size with compressed size and set compress_status to
COMPRESS_SECTION_DONE". -/
def bfd_compress_section (abfd : Bfd) (sec : Asection)
    (uncompressed_buffer : Option (List Nat)) : Option OpResult :=
  let uncompressed_size := sec.size
  if abfd.direction ≠ Direction.write_direction ∨ uncompressed_size = 0
      ∨ uncompressed_buffer = none ∨ sec.contents ≠ none
      ∨ sec.compressed_size ≠ 0
      ∨ sec.compress_status ≠ CompressStatus.compress_section_none then
    some ⟨false, some BfdError.invalid_operation, sec⟩
  else
    match uncompressed_buffer with
    | none => some ⟨false, some BfdError.invalid_operation, sec⟩
    | some buf =>
      (bfd_compress_section_contents abfd sec buf uncompressed_size).map
        fun r => ⟨r.ret ≠ 0, r.err, r.sec⟩

/-- The claimed invariant of the data model: the contents buffer is present
iff the state is `COMPRESS_SECTION_DONE`. -/
def contents_state_invariant (sec : Asection) : Prop :=
  sec.contents.isSome = true ↔ sec.compress_status = CompressStatus.compress_section_done

instance (sec : Asection) : Decidable (contents_state_invariant sec) := by
  unfold contents_state_invariant; infer_instance

/-! ## Concrete instances used by counterexamples and witnesses -/

/-- A fresh write-mode section of 16 bytes (for the no-gain commit). -/
def secC1 : Asection :=
  { name := ".debug_info", size := 16, rawsize := 0, compressed_size := 0,
    alignment_power := 0, contents := none,
    compress_status := CompressStatus.compress_section_none,
    linker_created := false, has_contents := true, in_memory := false }

/-- A write-mode bfd with the legacy (zero embedded header) target format,
whose backing storage holds non-`ZLIB` bytes and whose compressor produces
output as long as its input (an incompressible input). -/
def bfdC1 : Bfd :=
  { direction := Direction.write_direction, flavour := Flavour.elf_flavour,
    filesize := 0,
    get_compression_header_size := fun _ => 0,
    check_compression_header := fun _ _ => none,
    update_compression_header := fun _ => [],
    get_section_contents := fun _ n => some (List.replicate n 0),
    zlib_compress := fun l => some l }

/-- The 16 raw bytes committed in the no-gain scenario. -/
def ubufC1 : List Nat := [1, 2, 3, 4, 5, 6, 7, 8, 9, 10, 11, 12, 13, 14, 15, 16]

/-- The commit result the code produces in the no-gain scenario. -/
def resC1 : CommitResult :=
  ⟨16, none,
    { secC1 with
      contents := some ubufC1,
      compress_status := CompressStatus.compress_section_none }⟩

/-- A fresh write-mode section of 5 bytes (for the invariant check). -/
def secC2 : Asection :=
  { name := ".debug_abbrev", size := 5, rawsize := 0, compressed_size := 0,
    alignment_power := 0, contents := none,
    compress_status := CompressStatus.compress_section_none,
    linker_created := false, has_contents := true, in_memory := false }

/-- A write-mode bfd with an identity "compressor" (no-gain outcome). -/
def bfdC2 : Bfd :=
  { direction := Direction.write_direction, flavour := Flavour.elf_flavour,
    filesize := 0,
    get_compression_header_size := fun _ => 0,
    check_compression_header := fun _ _ => none,
    update_compression_header := fun _ => [],
    get_section_contents := fun _ n => some (List.replicate n 1),
    zlib_compress := fun l => some l }

/-- The 5 raw bytes committed in the invariant scenario. -/
def ubufC2 : List Nat := [10, 20, 30, 40, 50]

/-- The section state left behind by the no-gain commit of `ubufC2`. -/
def secC2after : Asection :=
  { secC2 with
    contents := some ubufC2,
    compress_status := CompressStatus.compress_section_none }

/-- A legacy-format section whose backing storage starts with `ZLIB`
followed by the 8-byte big-endian value 50. -/
def secC3 : Asection :=
  { name := ".zdebug_info", size := 100, rawsize := 0, compressed_size := 0,
    alignment_power := 0, contents := none,
    compress_status := CompressStatus.compress_section_none,
    linker_created := false, has_contents := true, in_memory := false }

/-- A bfd whose embedded-header size is zero and whose backing storage
serves the `ZLIB` + big-endian 50 header of the detection test vector. -/
def bfdC3 : Bfd :=
  { direction := Direction.read_direction, flavour := Flavour.elf_flavour,
    filesize := 1000,
    get_compression_header_size := fun _ => 0,
    check_compression_header := fun _ _ => none,
    update_compression_header := fun _ => [],
    get_section_contents := fun _ n =>
      some (([90, 76, 73, 66, 0, 0, 0, 0, 0, 0, 0, 50] : List Nat).take n),
    zlib_compress := fun _ => none }

/-- The detection outcome on the C3 test vector. -/
def resC3 : Option DetectResult := bfd_is_section_compressed_with_header bfdC3 secC3

/-- An already-compressed (legacy `.zdebug`) section whose raw bytes are
re-committed: original uncompressed size 10, on-disk size 24. -/
def secC5 : Asection :=
  { name := ".zdebug_str", size := 24, rawsize := 0, compressed_size := 0,
    alignment_power := 3, contents := none,
    compress_status := CompressStatus.compress_section_none,
    linker_created := false, has_contents := true, in_memory := false }

/-- The raw input of the bloat-fallback scenario: a 12-byte legacy header
announcing uncompressed size 10, followed by one compressed block whose
plaintext is the 10 bytes 1..10. -/
def ubufC5 : List Nat :=
  [90, 76, 73, 66, 0, 0, 0, 0, 0, 0, 0, 10] ++ [120, 10, 1, 2, 3, 4, 5, 6, 7, 8, 9, 10]

/-- A write-mode bfd whose target format has a 24-byte embedded header while
the section's current format is legacy (header size 0). -/
def bfdC5 : Bfd :=
  { direction := Direction.write_direction, flavour := Flavour.elf_flavour,
    filesize := 0,
    get_compression_header_size := fun o => match o with | none => 24 | some _ => 0,
    check_compression_header := fun _ _ => none,
    update_compression_header := fun _ => [],
    get_section_contents := fun _ n => some (ubufC5.take n),
    zlib_compress := fun l => some l }

/-- The detection outcome the commit sees in the bloat-fallback scenario. -/
def dC5 : DetectResult := ⟨true, 0, 10, 0, secC5⟩

/-- A section used to witness the zero-size early return. -/
def secC7 : Asection :=
  { name := ".empty", size := 0, rawsize := 0, compressed_size := 0,
    alignment_power := 0, contents := some [],
    compress_status := CompressStatus.compress_section_done,
    linker_created := false, has_contents := true, in_memory := true }

/-- A bfd used to witness the zero-size early return. -/
def bfdC7 : Bfd :=
  { direction := Direction.read_direction, flavour := Flavour.elf_flavour,
    filesize := 100,
    get_compression_header_size := fun _ => 0,
    check_compression_header := fun _ _ => none,
    update_compression_header := fun _ => [],
    get_section_contents := fun _ n => some (List.replicate n 9),
    zlib_compress := fun _ => none }

/-- A state-`None` section declaring 5 bytes (for the truncation guard). -/
def secT : Asection :=
  { name := ".data", size := 5, rawsize := 0, compressed_size := 0,
    alignment_power := 0, contents := none,
    compress_status := CompressStatus.compress_section_none,
    linker_created := false, has_contents := true, in_memory := false }

/-- An MMO-flavour bfd whose backing file holds only 1 byte. -/
def bfdMMO : Bfd :=
  { direction := Direction.read_direction, flavour := Flavour.mmo_flavour,
    filesize := 1,
    get_compression_header_size := fun _ => 0,
    check_compression_header := fun _ _ => none,
    update_compression_header := fun _ => [],
    get_section_contents := fun _ n => some (List.replicate n 7),
    zlib_compress := fun _ => none }

/-- The same bfd as `bfdMMO`, but not of MMO flavour. -/
def bfdTrunc : Bfd := { bfdMMO with flavour := Flavour.elf_flavour }

/-- A bfd whose backing-storage read always fails, to exercise the
read-failure path of detection. -/
def bfdC9 : Bfd :=
  { direction := Direction.read_direction, flavour := Flavour.elf_flavour,
    filesize := 0,
    get_compression_header_size := fun _ => 0,
    check_compression_header := fun _ _ => none,
    update_compression_header := fun _ => [],
    get_section_contents := fun _ _ => none,
    zlib_compress := fun _ => none }

/-- A `Done`-state section probed by detection in the C9 witness. -/
def secC9 : Asection :=
  { name := ".debug_line", size := 8, rawsize := 0, compressed_size := 0,
    alignment_power := 0, contents := some [1, 2, 3, 4, 5, 6, 7, 8],
    compress_status := CompressStatus.compress_section_done,
    linker_created := false, has_contents := true, in_memory := true }

/-- The detection outcome on `bfdC9`/`secC9` (read fails, not compressed). -/
def dC9 : DetectResult := ⟨false, 0, 8, 0, secC9⟩

/-- A legacy-format `.debug_str` section for the false-positive guard. -/
def secC6 : Asection :=
  { name := ".debug_str", size := 40, rawsize := 0, compressed_size := 0,
    alignment_power := 0, contents := none,
    compress_status := CompressStatus.compress_section_none,
    linker_created := false, has_contents := true, in_memory := false }

/-- A bfd whose backing storage serves the ASCII text `ZLIBxxxx...` (a
printable byte at offset 4) for the `.debug_str` false-positive guard;
its embedded-header codec accepts any header with size 20. -/
def bfdC6 : Bfd :=
  { direction := Direction.read_direction, flavour := Flavour.elf_flavour,
    filesize := 1000,
    get_compression_header_size := fun _ => 0,
    check_compression_header := fun _ _ => some (40, 2),
    update_compression_header := fun _ => [],
    get_section_contents := fun _ n =>
      some (([90, 76, 73, 66, 120, 120, 120, 120, 97, 98, 99, 100,
              101, 102, 103, 104, 105, 106, 107, 108] : List Nat).take n),
    zlib_compress := fun _ => none }

/-- The same setting as `bfdC6` but with a 20-byte embedded header format,
for the "guard applies only to legacy detection" half. -/
def bfdC6emb : Bfd := { bfdC6 with get_compression_header_size := fun _ => 20 }

/-! ## Helper lemmas about the stream decompressor -/

/-- Reduction: the loop stops with `Z_OK` when the input is exhausted or the
output buffer is full. -/
theorem inflateLoop_stop (f : Nat) (inp : List Nat) (availOut : Nat)
    (h : inp = [] ∨ availOut = 0) :
    inflateLoop (f + 1) inp availOut = ⟨Z_OK, inp, availOut, []⟩ := by
  rw [inflateLoop, if_pos h]

/-- Reduction: a cleanly-terminated block at the front of the input is
consumed and the loop continues on the remaining input. -/
theorem inflateLoop_step_end (f len : Nat) (rest : List Nat) (availOut : Nat)
    (h2 : len ≤ rest.length) (h3 : len ≤ availOut) (h4 : availOut ≠ 0) :
    inflateLoop (f + 1) (zBlockMagic :: len :: rest) availOut =
      ⟨(inflateLoop f (rest.drop len) (availOut - len)).rc,
       (inflateLoop f (rest.drop len) (availOut - len)).avail_in,
       (inflateLoop f (rest.drop len) (availOut - len)).avail_out,
       rest.take len ++ (inflateLoop f (rest.drop len) (availOut - len)).produced⟩ := by
  rw [inflateLoop, if_neg (by simp [h4])]
  simp [inflate, h2, h3]

/-- Reduction: a block whose plaintext exceeds the remaining output room
overruns the buffer and stops the loop with `Z_BUF_ERROR`. -/
theorem inflateLoop_step_buf (f len : Nat) (rest : List Nat) (availOut : Nat)
    (h2 : len ≤ rest.length) (h3 : ¬ len ≤ availOut) (h4 : availOut ≠ 0) :
    inflateLoop (f + 1) (zBlockMagic :: len :: rest) availOut =
      ⟨Z_BUF_ERROR, rest.drop availOut, 0, rest.take availOut⟩ := by
  rw [inflateLoop, if_neg (by simp [h4])]
  simp [inflate, h2, h3, (by decide : ¬ Z_BUF_ERROR = Z_STREAM_END)]

/-- Reduction: a corrupt or truncated block stops the loop with
`Z_DATA_ERROR`. -/
theorem inflateLoop_step_data (f : Nat) (inp : List Nat) (availOut : Nat)
    (hne : inp ≠ []) (h4 : availOut ≠ 0)
    (hbad : ∀ m len rest, inp = m :: len :: rest →
      ¬ (m = zBlockMagic ∧ len ≤ rest.length)) :
    inflateLoop (f + 1) inp availOut = ⟨Z_DATA_ERROR, inp, availOut, []⟩ := by
  rw [inflateLoop, if_neg (by simp [hne, h4])]
  match inp with
  | [] => exact absurd rfl hne
  | [x] =>
    simp only [inflate]
    rw [if_neg (by decide : ¬ Z_DATA_ERROR = Z_STREAM_END)]
  | m :: len :: rest =>
    simp only [inflate, if_neg (hbad m len rest rfl)]
    rw [if_neg (by decide : ¬ Z_DATA_ERROR = Z_STREAM_END)]

/-- Output accounting of the decompression loop: the bytes produced plus the
output room left always add up to the initial output room (the loop never
writes past the output buffer). -/
theorem inflateLoop_len (fuel : Nat) : ∀ (inp : List Nat) (availOut : Nat),
    (inflateLoop fuel inp availOut).produced.length
      + (inflateLoop fuel inp availOut).avail_out = availOut := by
  induction fuel with
  | zero => intro inp availOut; simp [inflateLoop]
  | succ f ih =>
    intro inp availOut
    by_cases hg : inp = [] ∨ availOut = 0
    · rw [inflateLoop_stop f inp availOut hg]; simp
    · push_neg at hg
      obtain ⟨hne, hout⟩ := hg
      match inp with
      | [] => exact absurd rfl hne
      | [x] =>
        rw [inflateLoop_step_data f [x] availOut (by simp) hout (by intro m len rest h; simp at h)]
        simp
      | m :: len :: rest =>
        by_cases h1 : m = zBlockMagic ∧ len ≤ rest.length
        · obtain ⟨hm, h2⟩ := h1
          subst hm
          by_cases h3 : len ≤ availOut
          · rw [inflateLoop_step_end f len rest availOut h2 h3 hout]
            have hlen : (rest.take len).length = len := by
              simp [List.length_take, Nat.min_eq_left h2]
            have := ih (rest.drop len) (availOut - len)
            simp only [List.length_append, hlen]
            omega
          · rw [inflateLoop_step_buf f len rest availOut h2 h3 hout]
            have hlen : (rest.take availOut).length = availOut := by
              simp [List.length_take]; omega
            simp [hlen]
        · rw [inflateLoop_step_data f (m :: len :: rest) availOut (by simp) hout
            (by intro m' len' rest' h; injection h with ha hb; injection hb with hc hd;
                subst ha; subst hc; subst hd; exact h1)]
          simp

/-- Characterization of the decompression loop's success condition: the loop
ends with `Z_OK` and a full output buffer exactly when some prefix of the
input splits into cleanly-terminated blocks whose plaintexts total the
output size.  Bytes after that prefix are never examined. -/
theorem inflateLoop_ok_iff : ∀ (fuel : Nat) (inp : List Nat) (availOut : Nat),
    inp.length < fuel →
    (((inflateLoop fuel inp availOut).rc = Z_OK
        ∧ (inflateLoop fuel inp availOut).avail_out = 0) ↔
      ∃ ps rest, inp = encodeBlocks ps ++ rest ∧ totalLen ps = availOut) := by
  intro fuel
  induction fuel with
  | zero => intro inp availOut h; omega
  | succ f ih =>
    intro inp availOut hfuel
    by_cases hg : inp = [] ∨ availOut = 0
    · rw [inflateLoop_stop f inp availOut hg]
      constructor
      · rintro ⟨-, h0⟩
        exact ⟨[], inp, by simp [encodeBlocks], by simp [totalLen]; exact h0.symm⟩
      · rintro ⟨ps, rest, heq, hlen⟩
        refine ⟨rfl, ?_⟩
        rcases hg with h | h
        · subst h
          match ps with
          | [] => show availOut = 0; simp [totalLen] at hlen; omega
          | p :: tl => simp [encodeBlocks, encodeBlock] at heq
        · exact h
    · push_neg at hg
      obtain ⟨hne, hout⟩ := hg
      match inp with
      | [] => exact absurd rfl hne
      | [x] =>
        rw [inflateLoop_step_data f [x] availOut (by simp) hout
          (by intro m len rest h; simp at h)]
        constructor
        · rintro ⟨hrc, -⟩
          have hrc2 : Z_DATA_ERROR = Z_OK := hrc
          exact absurd hrc2 (by decide)
        · rintro ⟨ps, rest, heq, hlen⟩
          match ps with
          | [] => simp [totalLen] at hlen; exact absurd hlen.symm hout
          | p :: tl => simp [encodeBlocks, encodeBlock] at heq
      | m :: len :: rest0 =>
        by_cases h1 : m = zBlockMagic ∧ len ≤ rest0.length
        · obtain ⟨hm, h2⟩ := h1
          subst hm
          by_cases h3 : len ≤ availOut
          · rw [inflateLoop_step_end f len rest0 availOut h2 h3 hout]
            have hfuel2 : (rest0.drop len).length < f := by
              simp only [List.length_drop]
              simp only [List.length_cons] at hfuel
              omega
            have hih := ih (rest0.drop len) (availOut - len) hfuel2
            refine Iff.trans (Iff.trans ?_ hih) ?_
            · constructor
              · rintro ⟨ha, hb⟩; exact ⟨ha, hb⟩
              · rintro ⟨ha, hb⟩; exact ⟨ha, hb⟩
            constructor
            · rintro ⟨ps, rest, heq, hlen⟩
              refine ⟨rest0.take len :: ps, rest, ?_, ?_⟩
              · have htl : (rest0.take len).length = len := by
                  simp [List.length_take, Nat.min_eq_left h2]
                simp only [encodeBlocks, encodeBlock, htl, List.cons_append,
                  List.append_assoc]
                rw [← heq, List.take_append_drop]
              · simp only [totalLen, List.map_cons, List.sum_cons,
                  List.length_take, Nat.min_eq_left h2]
                simp only [totalLen] at hlen
                omega
            · rintro ⟨ps, rest, heq, hlen⟩
              match ps with
              | [] => simp [totalLen] at hlen; exact absurd hlen.symm hout
              | p :: tl =>
                simp only [encodeBlocks, encodeBlock, List.cons_append, List.append_assoc] at heq
                injection heq with ha hb
                injection hb with hc hd
                refine ⟨tl, rest, ?_, ?_⟩
                · rw [hd, hc, List.drop_left]
                · simp only [totalLen, List.map_cons, List.sum_cons] at hlen
                  simp only [totalLen]
                  omega
          · rw [inflateLoop_step_buf f len rest0 availOut h2 h3 hout]
            constructor
            · rintro ⟨hrc, -⟩
              have hrc2 : Z_BUF_ERROR = Z_OK := hrc
              exact absurd hrc2 (by decide)
            · rintro ⟨ps, rest, heq, hlen⟩
              match ps with
              | [] => simp [totalLen] at hlen; exact absurd hlen.symm hout
              | p :: tl =>
                simp only [encodeBlocks, encodeBlock, List.cons_append, List.append_assoc] at heq
                injection heq with ha hb
                injection hb with hc hd
                simp only [totalLen, List.map_cons, List.sum_cons] at hlen
                omega
        · rw [inflateLoop_step_data f (m :: len :: rest0) availOut (by simp) hout
            (by intro m' len' rest' h; injection h with ha hb; injection hb with hc hd;
                subst ha; subst hc; subst hd; exact h1)]
          constructor
          · rintro ⟨hrc, -⟩
            have hrc2 : Z_DATA_ERROR = Z_OK := hrc
            exact absurd hrc2 (by decide)
          · rintro ⟨ps, rest, heq, hlen⟩
            match ps with
            | [] => simp [totalLen] at hlen; exact absurd hlen.symm hout
            | p :: tl =>
              simp only [encodeBlocks, encodeBlock, List.cons_append, List.append_assoc] at heq
              injection heq with ha hb
              injection hb with hc hd
              refine absurd ⟨ha, ?_⟩ h1
              rw [hc, hd]
              simp

/-- A successful `decompress_contents` fills the output buffer exactly. -/
theorem decompress_contents_length (cb : List Nat) (us : Nat) (out : List Nat)
    (h : decompress_contents cb us = some out) : out.length = us := by
  unfold decompress_contents at h
  set s := inflateLoop (cb.length + 1) cb us with hs
  by_cases hc : s.rc = Z_OK ∧ s.avail_out = 0
  · rw [if_pos hc] at h
    have := inflateLoop_len (cb.length + 1) cb us
    rw [← hs] at this
    cases h
    omega
  · rw [if_neg hc] at h
    cases h

/-! ## Claim theorems -/

/-- Claim C1 (code bug): on the write-path commit of a not-already-compressed
section whose compression shows no gain (16 incompressible bytes: compressed
payload plus 12-byte header is not smaller than 16), the code discards the
compressed buffer, keeps the original raw bytes as the section's contents and
returns the raw size unchanged — but sets `compress_status` to
`COMPRESS_SECTION_NONE`, not `COMPRESS_SECTION_DONE` as the claim (and the
source's own doc comments on `bfd_compress_section` /
`bfd_init_section_compress_status`) state. -/
theorem claim_C1_no_gain_keeps_raw_but_state_is_none :
    bfd_compress_section_contents bfdC1 secC1 ubufC1 16 = some resC1
    ∧ resC1.ret = 16
    ∧ resC1.sec.contents = some ubufC1
    ∧ resC1.sec.compress_status ≠ CompressStatus.compress_section_done :=
  ⟨rfl, rfl, rfl, by decide⟩

/-- Claim C2 (code bug): the invariant "`contents` is non-null iff
`compress_status = COMPRESS_SECTION_DONE`" holds before the no-gain
write-path commit but is violated after it: the commit succeeds, stores the
raw bytes as `contents`, yet leaves `compress_status` at
`COMPRESS_SECTION_NONE`. -/
theorem claim_C2_invariant_broken_by_no_gain_commit :
    contents_state_invariant secC2
    ∧ bfd_compress_section bfdC2 secC2 (some ubufC2) = some ⟨true, none, secC2after⟩
    ∧ ¬ contents_state_invariant secC2after :=
  ⟨by decide, rfl, by decide⟩

/-- Claim C3 (counterexample): on the legacy test vector (`ZLIB` followed by
big-endian 50, embedded-header size zero) detection reports the section as
compressed with uncompressed size 50, but the compression header size it
reports is 0 (the legacy sentinel), not 12 as the claim states. -/
theorem claim_C3_counterexample :
    resC3.map (fun d => (d.compressed, d.compression_header_size, d.uncompressed_size))
      = some (true, 0, 50)
    ∧ resC3.map DetectResult.compression_header_size ≠ some 12 :=
  ⟨rfl, by decide⟩

/-- Claim C3 (amended): on the test vector — a section whose header bytes
are `ZLIB` followed by the 8-byte big-endian value 50, under a format whose
embedded-header size is zero — detection reports the section as compressed
with uncompressed size 50, alignment power 0 and reported compression header
size 0 (the legacy sentinel — the legacy header occupies 12 bytes on disk),
restores the section unchanged, and the simple `bfd_is_section_compressed`
predicate returns true. -/
theorem claim_C3_legacy_detection :
    bfd_is_section_compressed_with_header bfdC3 secC3 = some ⟨true, 0, 50, 0, secC3⟩
    ∧ bfd_is_section_compressed bfdC3 secC3 = some true :=
  ⟨rfl, rfl⟩

/-- Claim C4 (counterexample): `decompress_contents` succeeds on the input
`[9, 9, 9]` with output size 0 although the input is not a sequence of
cleanly-terminated blocks that is entirely consumed — the claim's "every
input byte consumed" condition does not hold, so success is not equivalent
to it. -/
theorem claim_C4_counterexample :
    (decompress_contents [9, 9, 9] 0).isSome = true
    ∧ ¬ ∃ ps, ([9, 9, 9] : List Nat) = encodeBlocks ps ∧ totalLen ps = 0 := by
  refine ⟨rfl, ?_⟩
  rintro ⟨ps, heq, -⟩
  match ps with
  | [] => simp [encodeBlocks] at heq
  | p :: tl =>
    simp only [encodeBlocks, encodeBlock, List.cons_append] at heq
    injection heq with ha hb
    exact absurd ha (by decide)

/-- Claim C4 (amended): the stream decompressor succeeds exactly when some
prefix of the input is a sequence of concatenated, cleanly-terminated
compressed blocks whose plaintexts exactly fill the output buffer (no more,
no less); input bytes beyond that prefix are not examined and need not be
consumed.  Any deviation before the output is filled — truncation, partial
fill, over-run, corrupt block — is reported as failure. -/
theorem claim_C4_success_iff (inp : List Nat) (n : Nat) :
    (decompress_contents inp n).isSome = true ↔
      ∃ ps rest, inp = encodeBlocks ps ++ rest ∧ totalLen ps = n := by
  rw [← inflateLoop_ok_iff (inp.length + 1) inp n (by omega)]
  unfold decompress_contents
  by_cases hc : (inflateLoop (inp.length + 1) inp n).rc = Z_OK
      ∧ (inflateLoop (inp.length + 1) inp n).avail_out = 0
  · simp only [if_pos hc, Option.isSome_some, true_iff]
    exact hc
  · simp only [if_neg hc, Option.isSome_none]
    simp [hc]

/-- Claim C5: on the write-path commit of a section already carrying a
recognized compressed header, when the new total size (payload plus target
header) exceeds the previously recorded uncompressed size, the commit
decompresses the payload into a buffer of exactly the original uncompressed
size, restores the alignment power from the original header, stores that
buffer as the section's `Done` contents and returns the uncompressed
size. -/
theorem claim_C5_bloat_fallback (abfd : Bfd) (sec : Asection)
    (uncompressed_buffer : List Nat) (uncompressed_size : Nat)
    (d : DetectResult) (out : List Nat)
    (hd : bfd_is_section_compressed_with_header abfd sec = some d)
    (hc : d.compressed = true)
    (hchs : 0 ≤ d.compression_header_size)
    (hbloat : uncompressed_size - commit_orig_header_size d
        + commit_target_header_size abfd > d.uncompressed_size)
    (hdec : decompress_contents
        ((uncompressed_buffer.drop (commit_orig_header_size d)).take
          (uncompressed_size - commit_orig_header_size d))
        d.uncompressed_size = some out) :
    bfd_compress_section_contents abfd sec uncompressed_buffer uncompressed_size =
      some ⟨d.uncompressed_size, none,
        { sec with size := d.uncompressed_size,
                   alignment_power := d.uncompressed_align_pow,
                   contents := some out,
                   compress_status := CompressStatus.compress_section_done }⟩
    ∧ out.length = d.uncompressed_size := by
  refine ⟨?_, decompress_contents_length _ _ _ hdec⟩
  unfold bfd_compress_section_contents
  rw [hd]
  simp only [hc, if_true]
  rw [if_neg (by omega), if_pos hbloat, hdec]

/-- Claim C5 (witness): a legacy-header section of original uncompressed
size 10, re-committed against a 24-byte embedded target header, is stored as
the raw 10 decompressed bytes. -/
theorem claim_C5_witness :
    bfd_compress_section_contents bfdC5 secC5 ubufC5 24 =
      some ⟨10, none,
        { secC5 with size := 10, alignment_power := 0,
                     contents := some [1, 2, 3, 4, 5, 6, 7, 8, 9, 10],
                     compress_status := CompressStatus.compress_section_done }⟩
    ∧ ([1, 2, 3, 4, 5, 6, 7, 8, 9, 10] : List Nat).length = 10 :=
  claim_C5_bloat_fallback bfdC5 secC5 ubufC5 24 dC5 [1, 2, 3, 4, 5, 6, 7, 8, 9, 10]
    rfl rfl (by decide) (by decide) rfl

/-- Claim C6: when legacy-format detection (embedded-header size zero)
matches the `ZLIB` magic on a section named exactly `.debug_str` whose byte
at offset 4 is printable, detection reports the section as not compressed;
the guard does not apply to embedded-header detection, which reports such a
section as compressed whenever the header read succeeds. -/
theorem claim_C6_debug_str_guard :
    (∀ (abfd : Bfd) (sec : Asection) (hdr : List Nat),
      abfd.get_compression_header_size (some sec) = 0 →
      sec.name = ".debug_str" →
      abfd.get_section_contents
          { sec with compress_status := CompressStatus.compress_section_none } 12
        = some hdr →
      startswith hdr zlibMagicBytes = true →
      isprint (hdr.getD 4 0) = true →
      (bfd_is_section_compressed_with_header abfd sec).map DetectResult.compressed
        = some false)
    ∧
    (∀ (abfd : Bfd) (sec : Asection) (hdr : List Nat),
      abfd.get_compression_header_size (some sec) ≠ 0 →
      abfd.get_compression_header_size (some sec) ≤ MAX_COMPRESSION_HEADER_SIZE →
      sec.name = ".debug_str" →
      abfd.get_section_contents
          { sec with compress_status := CompressStatus.compress_section_none }
          (abfd.get_compression_header_size (some sec))
        = some hdr →
      isprint (hdr.getD 4 0) = true →
      (bfd_is_section_compressed_with_header abfd sec).map DetectResult.compressed
        = some true) := by
  constructor
  · intro abfd sec hdr hchs hname hread hmagic hprint
    unfold bfd_is_section_compressed_with_header
    rw [hchs]
    simp only [MAX_COMPRESSION_HEADER_SIZE]
    rw [if_neg (by omega)]
    simp only [ne_eq, not_true_eq_false, if_neg, ite_false, if_false]
    rw [hread]
    simp [List.getD] at hprint
    simp [hmagic, hname, hprint]
  · intro abfd sec hdr hchs hle hname hread hprint
    unfold bfd_is_section_compressed_with_header
    simp only [MAX_COMPRESSION_HEADER_SIZE] at hle ⊢
    rw [if_neg (by omega)]
    rw [if_pos hchs]
    rw [hread]
    cases hcc : abfd.check_compression_header hdr
        { sec with compress_status := CompressStatus.compress_section_none } with
    | none => simp [hchs, hcc]
    | some v => cases v with
      | mk usz upow => simp [hchs, hcc]

/-- Claim C6 (witness): the `.debug_str` text vector `ZLIBxxxx...` is
reported not compressed by legacy detection, and compressed by
embedded-header detection. -/
theorem claim_C6_witness :
    (bfd_is_section_compressed_with_header bfdC6 secC6).map DetectResult.compressed
      = some false
    ∧ (bfd_is_section_compressed_with_header bfdC6emb secC6).map DetectResult.compressed
      = some true :=
  ⟨claim_C6_debug_str_guard.1 bfdC6 secC6
      [90, 76, 73, 66, 120, 120, 120, 120, 97, 98, 99, 100] rfl rfl rfl rfl rfl,
   claim_C6_debug_str_guard.2 bfdC6emb secC6
      [90, 76, 73, 66, 120, 120, 120, 120, 97, 98, 99, 100,
       101, 102, 103, 104, 105, 106, 107, 108]
      (by decide) (by decide) rfl rfl rfl⟩

/-- Claim C7: full-content retrieval on a section whose effective size (the
`sz` the function computes from `size`/`rawsize` and the open direction) is
zero returns success with no bytes and leaves the section unchanged, in
every state; no read or allocation is performed (the result does not depend
on the backing storage or the allocator). -/
theorem claim_C7_zero_size (abfd : Bfd) (sec : Asection) (ptr : Option (List Nat))
    (h : full_contents_size abfd sec = 0) :
    bfd_get_full_section_contents abfd sec ptr = ⟨true, none, none, sec⟩ := by
  unfold bfd_get_full_section_contents
  rw [h]
  rfl

/-- Claim C7 (witness): a zero-size `Done`-state section. -/
theorem claim_C7_witness :
    bfd_get_full_section_contents bfdC7 secC7 none = ⟨true, none, none, secC7⟩ :=
  claim_C7_zero_size bfdC7 secC7 none rfl

/-- Claim C8 (counterexample): an MMO-flavour bfd meeting every trigger
condition of the claim (nonzero file size smaller than the declared section
size, state `None`, no caller buffer, not linker-created, has contents) does
not fail with `FileTruncated` — retrieval proceeds to read, refuting the
claim as stated. -/
theorem claim_C8_counterexample :
    (0 < bfdMMO.filesize
      ∧ bfdMMO.filesize < full_contents_size bfdMMO secT
      ∧ secT.linker_created = false ∧ secT.has_contents = true
      ∧ secT.compress_status = CompressStatus.compress_section_none)
    ∧ bfd_get_full_section_contents bfdMMO secT none
        ≠ ⟨false, none, some BfdError.file_truncated, secT⟩
    ∧ bfd_get_full_section_contents bfdMMO secT none
        = ⟨true, some [7, 7, 7, 7, 7], none, secT⟩ :=
  ⟨⟨by decide, by decide, rfl, rfl, rfl⟩, by decide, rfl⟩

/-- Claim C8 (amended): retrieval of a state-`None` section with no
caller-supplied buffer fails with `FileTruncated` — without reading or
allocating (the result does not depend on the backing storage or the
allocator) — whenever the declared section size exceeds the backing file's
nonzero size, the section is neither linker-created nor lacking contents,
and the bfd's target flavour is not MMO. -/
theorem claim_C8_truncation_guard (abfd : Bfd) (sec : Asection)
    (hst : sec.compress_status = CompressStatus.compress_section_none)
    (hfs : 0 < abfd.filesize)
    (hlt : abfd.filesize < full_contents_size abfd sec)
    (hlc : sec.linker_created = false)
    (hhc : sec.has_contents = true)
    (hfl : abfd.flavour ≠ Flavour.mmo_flavour) :
    bfd_get_full_section_contents abfd sec none
      = ⟨false, none, some BfdError.file_truncated, sec⟩ := by
  unfold bfd_get_full_section_contents
  rw [if_neg (by omega)]
  rw [hst]
  rw [if_pos ⟨rfl, hfs, hlt, hlc, hhc, hfl⟩]

/-- Claim C8 (amended, witness): the non-MMO counterpart of the C8 scenario
fails with `FileTruncated`. -/
theorem claim_C8_witness :
    bfd_get_full_section_contents bfdTrunc secT none
      = ⟨false, none, some BfdError.file_truncated, secT⟩ :=
  claim_C8_truncation_guard bfdTrunc secT rfl (by decide) (by decide) rfl rfl
    (by decide)

/-- Claim C9: detection never disturbs the section's `compress_status` — the
status in the section it returns equals the status before the call on every
returning path, including when the header read from backing storage
fails. -/
theorem claim_C9_detect_preserves_status (abfd : Bfd) (sec : Asection)
    (d : DetectResult)
    (h : bfd_is_section_compressed_with_header abfd sec = some d) :
    d.sec.compress_status = sec.compress_status := by
  simp only [bfd_is_section_compressed_with_header] at h
  repeat' split at h
  all_goals first
    | exact Option.noConfusion h
    | (injection h with h2; rw [← h2])

/-- Claim C9 (witness): detection on a `Done`-state section whose header
read fails still returns the section with status `Done`. -/
theorem claim_C9_witness : dC9.sec.compress_status = secC9.compress_status :=
  claim_C9_detect_preserves_status bfdC9 secC9 dC9 rfl

/-- Claim C10: for an MMO-flavour bfd the truncation guard never fires on
the state-`None` retrieval path: even when the declared section size exceeds
the backing file's nonzero size and the linker-created/no-contents
exemptions do not apply, retrieval proceeds to allocate and read, and the
outcome is exactly the outcome of the raw read. -/
theorem claim_C10_mmo_exempt (abfd : Bfd) (sec : Asection)
    (hfl : abfd.flavour = Flavour.mmo_flavour)
    (hst : sec.compress_status = CompressStatus.compress_section_none)
    (hfs : 0 < abfd.filesize)
    (hlt : abfd.filesize < full_contents_size abfd sec)
    (hlc : sec.linker_created = false)
    (hhc : sec.has_contents = true) :
    bfd_get_full_section_contents abfd sec none =
      match abfd.get_section_contents sec (full_contents_size abfd sec) with
      | none => ⟨false, none, some BfdError.io_error, sec⟩
      | some bytes => ⟨true, some bytes, none, sec⟩ := by
  unfold bfd_get_full_section_contents
  rw [if_neg (by omega)]
  rw [hst]
  rw [if_neg (by simp [hfl])]

/-- Claim C10 (witness): the concrete MMO scenario reads 5 bytes although
the file size is 1. -/
theorem claim_C10_witness :
    bfd_get_full_section_contents bfdMMO secT none =
      match bfdMMO.get_section_contents secT (full_contents_size bfdMMO secT) with
      | none => ⟨false, none, some BfdError.io_error, secT⟩
      | some bytes => ⟨true, some bytes, none, secT⟩ :=
  claim_C10_mmo_exempt bfdMMO secT rfl rfl (by decide) (by decide) rfl rfl

end BfdCompress
